import Mathlib

/-!
Verification of the extraction-and-normalization engine of
`node-red-contrib-dwd-weatherforecast` (src/nodes/dwd-weatherforecast.js).

Shallow embedding conventions:
* JS numbers are modelled as `Rat` (the engine only ever does exact
  arithmetic on parsed decimal values); timestamps (milliseconds since
  epoch, produced by `moment.tz(...).valueOf()`) are modelled as `Int`.
* JS `null`/`undefined` slots are `Option.none`.
* `Math.exp` is abstracted as an explicit function argument `expF`;
  theorems assume only the properties of the exponential they need.
* `Math.round` rounds half toward positive infinity, as does the tie
  rule of `Number.prototype.toFixed`; both are modelled exactly.
* Strings rendered by template literals that interpolate numbers
  (`precipitationText`) are modelled structurally as the triple of
  interpolated pieces, since JS float-to-string rendering is outside
  the numeric model.
-/

namespace Dwd

/-- A value slot in a parameter series: `none` models JS `null`
(`safeNumber` maps unparseable tokens to `null`). -/
abbrev Val := Option Rat

/-- One parameter series as built by the extraction strategies:
`{ code, unit, values }` (dwd-weatherforecast.js lines 234, 306, 388). -/
structure ParamSeries where
  code : String
  unit : Option String
  values : List Val
deriving Repr, DecidableEq

/-- A JS object mapping codes to series, modelled as an association list
(first binding for a key wins on lookup). -/
abbrev ParamSet := List (String × ParamSeries)

/-- JS property lookup `params[code]`. -/
def lookupP (ps : ParamSet) (c : String) : Option ParamSeries :=
  (ps.find? (fun q => q.1 = c)).map (fun q => q.2)

/-- `Math.round`: round half toward positive infinity (line 626, 617). -/
def jsRound (x : Rat) : Int := ⌊x + 1/2⌋

/-- `(+x.toFixed(d))` for a small literal `d`: round to `d` decimal digits,
ties toward the larger value (ECMA `toFixed` tie rule), read back as a
number (lines 615-618). -/
def roundFixed (d : Nat) (x : Rat) : Rat :=
  ((⌊x * (10 : Rat) ^ d + 1/2⌋ : Int) : Rat) / (10 : Rat) ^ d

/-- Truncation toward zero, the integer part used by the JS `%` operator. -/
def ratTrunc (x : Rat) : Int := if x < 0 then ⌈x⌉ else ⌊x⌋

/-- The JS remainder operator `x % y` on numbers (sign follows `x`). -/
def jsMod (x y : Rat) : Rat := x - y * ((ratTrunc (x / y) : Int) : Rat)

/-- `toKmh` (line 19). -/
def toKmh (ms : Rat) : Rat := ms * (36 / 10)

/-- `toHpa` (line 20). -/
def toHpa (pa : Rat) : Rat := pa / 100

/-- `toKm` (line 21). -/
def toKm (m : Rat) : Rat := m / 1000

/-- `KtoC` (lines 18, 581). -/
def KtoC (k : Rat) : Rat := k - 27315 / 100

/-- The Magnus-Tetens exponent `gamma(x) = A*x/(B+x)` with
`A = 17.625`, `B = 243.04` (lines 582, 604). -/
def magnusGamma (xC : Rat) : Rat := (17625 / 1000) * xC / (24304 / 100 + xC)

/-- German 8-sector compass names (line 559). -/
def names8 : List String := ["N", "NO", "O", "SO", "S", "SW", "W", "NW"]

/-- German 16-sector compass names (line 564). -/
def names16 : List String :=
  ["N", "NNO", "NO", "ONO", "O", "OSO", "SO", "SSO",
   "S", "SSW", "SW", "WSW", "W", "WNW", "NW", "NNW"]

/-- `dirToCardinal(deg, mode)` (lines 554-569): normalize the angle to
`[0, 360)`, divide by the sector width, round to the nearest sector
index and look the name up; `null` input or an unknown mode gives
`null`. -/
def dirToCardinal (deg : Option Rat) (mode : String) : Option String :=
  match deg with
  | none => none
  | some d =>
    let norm : Rat := jsMod (jsMod d 360 + 360) 360
    if mode = "8" then
      some (names8.getD ((jsRound (norm / 45)) % 8).toNat "")
    else if mode = "16" then
      some (names16.getD ((jsRound (norm / 22.5)) % 16).toNat "")
    else none

/-- Normalizer configuration, the `cfg` object handed to
`normalizeRecords` (lines 1044-1051). -/
structure Cfg where
  coreOnly : Bool
  toC : Bool
  windToKmh : Bool
  pressureToHpa : Bool
  visibilityToKm : Bool
  windDirMode : String
deriving Repr, DecidableEq

/-- The pieces interpolated into the rendered precipitation template
`` `${kind} (${intensity}) - ${value} mm/h` `` (line 643). -/
structure PrecipText where
  kind : String
  intensity : String
  rate : Rat
deriving Repr, DecidableEq

/-- One output record (lines 620-631 plus the conditional
`windDirCardinal` of line 635).  `iso` models
`new Date(ts).toISOString()`: the same instant in rendered form. -/
structure ForecastRecord where
  ts : Int
  iso : Int
  temperature : Option Rat
  windSpeed : Option Rat
  windDir : Option Rat
  pressure : Option Rat
  relHumidity : Option Int
  visibility : Option Rat
  cloudCover : Option Rat
  precipitation : Option Rat
  precipitationText : Option PrecipText
  windDirCardinal : Option String
deriving Repr, DecidableEq

/-- `getFirst(codes, i)` (lines 573-579): return `p.values[i]` for the
first listed code whose series exists and has slot `i`
(`values[i] !== undefined`); the slot itself may hold `null`. -/
def getFirst (params : ParamSet) (codes : List String) (i : Nat) : Option Rat :=
  match codes with
  | [] => none
  | c :: rest =>
    match lookupP params c with
    | some p =>
      match p.values.get? i with
      | some v => v
      | none => getFirst params rest i
    | none => getFirst params rest i

/-- The body of the per-timestep loop of `normalizeRecords`
(lines 585-646), producing one record for index `i` and instant `t`.
`expF` stands for `Math.exp`. -/
def buildRecord (expF : Rat → Rat) (params : ParamSet) (cfg : Cfg)
    (i : Nat) (t : Int) : ForecastRecord :=
  let tK := getFirst params ["TTT"] i
  let tdK := getFirst params ["Td"] i
  let rh0 := getFirst params ["rH", "RELH"] i
  let windSpeed0 := getFirst params ["FF"] i
  let windDir := getFirst params ["DD"] i
  let pressure0 := getFirst params ["PPPP"] i
  let visibility0 := getFirst params ["VV"] i
  let cloudCover := getFirst params ["Neff", "neff"] i
  let precip := getFirst params ["RR1c", "RR1o1"] i
  let rh : Option Rat :=
    match rh0 with
    | some r => some r
    | none =>
      match tK, tdK with
      | some k, some dk =>
        let es := expF (magnusGamma (KtoC k))
        let e := expF (magnusGamma (KtoC dk))
        some (max 0 (min 100 (100 * (e / es))))
      | _, _ => none
  let temperature := if cfg.toC then tK.map (fun k => roundFixed 2 (KtoC k)) else tK
  let windSpeed :=
    if cfg.windToKmh then windSpeed0.map (fun v => roundFixed 2 (toKmh v)) else windSpeed0
  let pressure :=
    if cfg.pressureToHpa then pressure0.map (fun p => ((jsRound (toHpa p) : Int) : Rat))
    else pressure0
  let visibility :=
    if cfg.visibilityToKm then visibility0.map (fun v => roundFixed 1 (toKm v))
    else visibility0
  let windDirCardinal :=
    if cfg.windDirMode ≠ "" ∧ cfg.windDirMode ≠ "deg" then
      dirToCardinal windDir cfg.windDirMode
    else none
  let precipitationText :=
    precip.map (fun p =>
      { kind := "Regen"
        intensity := if p < 3/10 then "leicht" else if p < 1 then "mäßig" else "stark"
        rate := p })
  { ts := t, iso := t
    temperature := temperature, windSpeed := windSpeed, windDir := windDir
    pressure := pressure, relHumidity := rh.map jsRound, visibility := visibility
    cloudCover := cloudCover, precipitation := precip
    precipitationText := precipitationText, windDirCardinal := windDirCardinal }

/-- The `coreOnly` projection (lines 649-660): the core key list names
every field the loop can set, so the projection re-emits each field;
a missing `windDirCardinal` becomes `null`, which `Option.none`
already models. -/
def coreProject (r : ForecastRecord) : ForecastRecord :=
  { ts := r.ts, iso := r.iso
    temperature := r.temperature, windSpeed := r.windSpeed, windDir := r.windDir
    pressure := r.pressure, relHumidity := r.relHumidity, visibility := r.visibility
    cloudCover := r.cloudCover, precipitation := r.precipitation
    precipitationText := r.precipitationText, windDirCardinal := r.windDirCardinal }

/-- `normalizeRecords(timeSteps, params, cfg)` (lines 572-662). -/
def normalizeRecords (expF : Rat → Rat) (timeSteps : List Int)
    (params : ParamSet) (cfg : Cfg) : List ForecastRecord :=
  let out := timeSteps.enum.map (fun q => buildRecord expF params cfg q.1 q.2)
  if cfg.coreOnly then out.map coreProject else out

/-! ### Series alignment (fetchAndParseMosmix, lines 796-801) -/

/-- Aligning one series to the time-axis length `n`: overlong series are
cut with `slice(0, n)`, short ones are padded with `null`. -/
def alignValues (n : Nat) (vs : List Val) : List Val :=
  let vs1 := if n < vs.length then vs.take n else vs
  if vs1.length < n then vs1 ++ List.replicate (n - vs1.length) none else vs1

/-- Alignment applied to every series of a parameter set. -/
def alignParams (n : Nat) (params : ParamSet) : ParamSet :=
  params.map (fun q => (q.1, { q.2 with values := alignValues n q.2.values }))

/-! ### Extraction fallback chain (fetchAndParseMosmix, lines 766-788) -/

/-- JS object spread `{ ...a, ...b }`: keys of `a` in place (values
overridden by `b` where present), then the keys only `b` has. -/
def spreadMerge (a b : ParamSet) : ParamSet :=
  a.map (fun q => (q.1, (lookupP b q.1).getD q.2)) ++
    b.filter (fun q => (lookupP a q.1).isNone)

/-- The strategy chain of lines 766-788, parametrized by the candidate
sets the five extractors return on the current document:
`pA` = `extractParamsFromSchemaData` (tabular simple-array),
`pB` = `extractParamsFromForecast` (Forecast/TimeSeries),
`pB2` = `extractParamsFromDwdForecast` (attribute-named Forecast),
`pC` = `extractParamsByRegex` (raw-text patterns),
`pD` = `extractParamsByGenericWalk` (generic deep walk).
Each later strategy is consulted only while the accumulated object is
still empty. -/
def paramsChain (pA pB pB2 pC pD : ParamSet) : ParamSet :=
  let params := spreadMerge [] pA
  let params := if params.isEmpty then spreadMerge params pB else params
  let params := if params.isEmpty then spreadMerge params pB2 else params
  let params := if params.isEmpty then spreadMerge params pC else params
  let params := if params.isEmpty then spreadMerge params pD else params
  params

/-! ### Temporal filters (lines 891-966) -/

/-- Index of the first element satisfying `p`, mirroring the scan that
sets `firstIdx` (lines 900-906). -/
def firstSatIdx (p : α → Bool) : List α → Option Nat
  | [] => none
  | h :: t => if p h then some 0 else (firstSatIdx p t).map (· + 1)

/-- Index of the last element satisfying `p`, mirroring the scan that
sets `lastIdx` (lines 900-906). -/
def lastSatIdx (p : α → Bool) : List α → Option Nat
  | [] => none
  | h :: t =>
    match lastSatIdx p t with
    | some j => some (j + 1)
    | none => if p h then some 0 else none

/-- `Array.prototype.slice(a, b)` for `0 ≤ a ≤ b`. -/
def jsSlice (l : List α) (a b : Nat) : List α := (l.drop a).take (b - a)

/-- Slicing every series of a parameter set in lockstep
(lines 929-932). -/
def sliceParams (params : ParamSet) (a b : Nat) : ParamSet :=
  params.map (fun q => (q.1, { q.2 with values := jsSlice q.2.values a b }))

/-- Window membership `t >= now && t <= end` (line 902). -/
def winP (now : Int) (endT : Rat) (t : Int) : Bool :=
  decide (now ≤ t) && decide ((t : Rat) ≤ endT)

/-- `applyHoursAheadFilter(timeSteps, params, hoursAhead)`
(lines 891-934).  `now` is passed explicitly (the JS reads
`Date.now()`); the guard `!hoursAhead || !Number.isFinite(hoursAhead) ||
hoursAhead <= 0` collapses to `hoursAhead ≤ 0` in the exact model. -/
def applyHoursAheadFilter (now : Int) (timeSteps : List Int)
    (params : ParamSet) (hoursAhead : Rat) : List Int × ParamSet :=
  if hoursAhead ≤ 0 then (timeSteps, params) else
  let endT : Rat := (now : Rat) + hoursAhead * 3600 * 1000
  match firstSatIdx (winP now endT) timeSteps with
  | some f =>
    match lastSatIdx (winP now endT) timeSteps with
    | some l => (jsSlice timeSteps f (l + 1), sliceParams params f (l + 1))
    | none => (timeSteps, params)
  | none =>
    match firstSatIdx (fun t => decide (now ≤ t)) timeSteps with
    | none => (timeSteps, params)
    | some f =>
      let lI : Int :=
        min ((timeSteps.length : Int) - 1) ((f : Int) + max 0 ⌈hoursAhead⌉ - 1)
      if lI < (f : Int) then (timeSteps, params)
      else (jsSlice timeSteps f (lI.toNat + 1), sliceParams params f (lI.toNat + 1))

/-- `applyOnlyFutureFilter(timeSteps, params, onlyFuture)`
(lines 937-966). -/
def applyOnlyFutureFilter (now : Int) (timeSteps : List Int)
    (params : ParamSet) (onlyFuture : Bool) : List Int × ParamSet :=
  if !onlyFuture then (timeSteps, params) else
  match firstSatIdx (fun t => decide (now ≤ t)) timeSteps with
  | none => ([], params.map (fun q => (q.1, { q.2 with values := [] })))
  | some 0 => (timeSteps, params)
  | some start =>
    (timeSteps.drop start,
     params.map (fun q => (q.1, { q.2 with values := q.2.values.drop start })))

/-! ### Freshness cache and orchestrator (lines 814-1103) -/

/-- The `_meta` object attached to an emitted message (lines 1072-1078). -/
structure Meta where
  url : String
  count : Nat
  stale : Bool
  paramsAvailable : List String
  windDirMode : String
deriving Repr, DecidableEq

/-- The `station` object of an emitted message. -/
structure Station where
  id : String
  name : Option String
deriving Repr, DecidableEq

/-- An emitted message (`node.send(out)`). -/
structure OutMsg where
  payload : List ForecastRecord
  station : Station
  meta : Meta
deriving Repr, DecidableEq

/-- The context entry written by `saveLastGood` (lines 850-857); the
JS `at` key is `capturedAt` here (`at` is reserved in Lean). -/
structure CacheEntry where
  capturedAt : Int
  station : String
  series : List ForecastRecord
  meta : Meta
deriving Repr, DecidableEq

/-- Node configuration resolved from the editor UI (lines 823-839). -/
structure NodeCfg where
  station : String
  sourceUrl : String
  staleOnError : Bool
  onlyFuture : Bool
  hoursAhead : Rat
  coreOnly : Bool
  toC : Bool
  windToKmh : Bool
  pressureToHpa : Bool
  visibilityToKm : Bool
  windDirMode : String
deriving Repr, DecidableEq

/-- The message fields `runFetch` consults (lines 970-979, 1005-1011). -/
structure Msg where
  station : Option String
  sourceUrl : Option String
  hoursAhead : Option Rat
  onlyFuture : Option Bool
deriving Repr, DecidableEq

/-- The observable outcome of one `runFetch` invocation: the context
after the run, the message sent (if any), the text handed to
`node.error` (if any), and whether `buildUrl` threw
(`StationMissingError`, raised outside the `try`). -/
structure RunOutcome where
  ctx : Option CacheEntry
  sent : Option OutMsg
  errored : Option String
  threw : Bool
deriving Repr, DecidableEq

/-- The parse result `{ timeSteps, params, stationName }` that a
successful `fetchAndParseMosmix` resolves with (line 804). -/
structure FetchOk where
  timeSteps : List Int
  params : ParamSet
  stationName : Option String
deriving Repr, DecidableEq

/-- JS `a || b` on strings. -/
def jsOrString (a b : String) : String := if a = "" then b else a

/-- `String.prototype.toUpperCase` (character-wise upper-casing). -/
def jsToUpper (s : String) : String := ⟨s.data.map Char.toUpper⟩

/-- `String.prototype.trim` (strip whitespace from both ends). -/
def jsTrim (s : String) : String :=
  ⟨((s.data.dropWhile Char.isWhitespace).reverse.dropWhile Char.isWhitespace).reverse⟩

/-- The default URL template (lines 8-9). -/
def DEFAULT_URL_TEMPLATE : String :=
  "https://opendata.dwd.de/weather/local_forecasts/mos/MOSMIX_L/single_stations/{station}/kml/MOSMIX_L_LATEST_{station}.kmz"

/-- `(msg && msg.station) || node.station` (line 970). -/
def effStation (node : NodeCfg) (msg : Msg) : String :=
  jsOrString ((msg.station).getD "") node.station

/-- `buildUrl(station, tpl)` (lines 881-888): `none` models the thrown
`StationMissingError`. -/
def buildUrl (station : String) (tpl : String) : Option String :=
  let st := jsTrim (jsToUpper station)
  if st = "" then none
  else some ((jsOrString tpl DEFAULT_URL_TEMPLATE).replace "{station}" st)

/-- `sendStaleIfAvailable()` (lines 859-878) as the message it emits:
the cached series, the cached station id, and the cached meta with the
staleness flag overridden to `true`.  (`last.meta?.stationName` is
always `undefined` because the meta object carries no such key, so the
emitted name is `null`.) -/
def sendStaleIfAvailable (ctx : Option CacheEntry) : Option OutMsg :=
  match ctx with
  | none => none
  | some last =>
    some { payload := last.series
           station := { id := last.station, name := none }
           meta := { last.meta with stale := true } }

/-- `runFetch(msg)` (lines 969-1103).  `fetched` is the outcome of
`fetchAndParseMosmix` (already-parsed success value or the failure
message after all retries); `now` stands for the `Date.now()` readings
of the filters and of `saveLastGood`. -/
def runFetch (expF : Rat → Rat) (node : NodeCfg) (ctx : Option CacheEntry)
    (msg : Msg) (fetched : Except String FetchOk) (now : Int) : RunOutcome :=
  let station := effStation node msg
  let tpl := jsOrString ((msg.sourceUrl).getD "") (jsOrString node.sourceUrl DEFAULT_URL_TEMPLATE)
  match buildUrl station tpl with
  | none => { ctx := ctx, sent := none, errored := none, threw := true }
  | some url =>
    match fetched with
    | .ok f =>
      let effHoursAhead : Rat := (msg.hoursAhead).getD node.hoursAhead
      let effOnlyFuture : Bool := (msg.onlyFuture).getD node.onlyFuture
      let r1 := applyOnlyFutureFilter now f.timeSteps f.params effOnlyFuture
      let r2 := applyHoursAheadFilter now r1.1 r1.2 effHoursAhead
      let cfg : Cfg :=
        { coreOnly := node.coreOnly, toC := node.toC, windToKmh := node.windToKmh
          pressureToHpa := node.pressureToHpa, visibilityToKm := node.visibilityToKm
          windDirMode := node.windDirMode }
      let series := normalizeRecords expF r2.1 r2.2 cfg
      let meta : Meta :=
        { url := url, count := series.length, stale := false
          paramsAvailable := List.insertionSort (fun a b => a ≤ b) (r2.2.map Prod.fst)
          windDirMode := node.windDirMode }
      let out : OutMsg :=
        { payload := series, station := { id := station, name := f.stationName }, meta := meta }
      { ctx := some { capturedAt := now, station := station, series := series, meta := meta }
        sent := some out, errored := none, threw := false }
    | .error e =>
      if node.staleOnError then
        match sendStaleIfAvailable ctx with
        | some out => { ctx := ctx, sent := some out, errored := none, threw := false }
        | none => { ctx := ctx, sent := none, errored := some e, threw := false }
      else { ctx := ctx, sent := none, errored := some e, threw := false }

/-! ### Concrete sample fixtures for witnesses and counterexamples -/

/-- A normalizer configuration with every conversion disabled. -/
def sampleCfg : Cfg :=
  { coreOnly := false, toC := false, windToKmh := false
    pressureToHpa := false, visibilityToKm := false, windDirMode := "deg" }

/-- A node configuration with all optional behavior disabled. -/
def sampleNode : NodeCfg :=
  { station := "10382", sourceUrl := "", staleOnError := false, onlyFuture := false
    hoursAhead := 0, coreOnly := false, toC := false, windToKmh := false
    pressureToHpa := false, visibilityToKm := false, windDirMode := "deg" }

/-- An input message carrying no overrides. -/
def msgNone : Msg :=
  { station := none, sourceUrl := none, hoursAhead := none, onlyFuture := none }

/-- A sample `_meta` object for cache entries. -/
def sampleMeta : Meta :=
  { url := "u", count := 0, stale := false, paramsAvailable := [], windDirMode := "deg" }

/-! ## Helper lemmas -/

theorem firstSatIdx_eq_none_of_all_false {p : α → Bool} {l : List α}
    (h : ∀ a ∈ l, p a = false) : firstSatIdx p l = none := by
  induction l with
  | nil => rfl
  | cons hd tl ih =>
    rw [firstSatIdx, if_neg (by simp [h hd (List.mem_cons_self hd tl)]),
      ih (fun a ha => h a (List.mem_cons_of_mem hd ha))]
    rfl

theorem lastSatIdx_eq_none_of_all_false {p : α → Bool} {l : List α}
    (h : ∀ a ∈ l, p a = false) : lastSatIdx p l = none := by
  induction l with
  | nil => rfl
  | cons hd tl ih =>
    rw [lastSatIdx, ih (fun a ha => h a (List.mem_cons_of_mem hd ha))]
    simp [h hd (List.mem_cons_self hd tl)]

theorem all_false_of_lastSatIdx_eq_none {p : α → Bool} {l : List α}
    (h : lastSatIdx p l = none) : ∀ a ∈ l, p a = false := by
  induction l with
  | nil => intro a ha; cases ha
  | cons hd tl ih =>
    rw [lastSatIdx] at h
    rcases hlt : lastSatIdx p tl with _ | j
    · rw [hlt] at h
      intro a ha
      rcases List.mem_cons.mp ha with rfl | hmem
      · cases hp : p a
        · rfl
        · rw [if_pos hp] at h; cases h
      · exact ih hlt a hmem
    · rw [hlt] at h; cases h

theorem firstSatIdx_isSome_of_exists {p : α → Bool} {l : List α}
    (h : ∃ a ∈ l, p a = true) : (firstSatIdx p l).isSome := by
  induction l with
  | nil => rcases h with ⟨a, ha, _⟩; cases ha
  | cons hd tl ih =>
    cases hp : p hd
    · rcases h with ⟨a, ha, hpa⟩
      rcases List.mem_cons.mp ha with rfl | hmem
      · rw [hp] at hpa; cases hpa
      · have hs := ih ⟨a, hmem, hpa⟩
        rw [firstSatIdx, if_neg (by simp [hp])]
        rcases hfi : firstSatIdx p tl with _ | j
        · rw [hfi] at hs; cases hs
        · rfl
    · rw [firstSatIdx, if_pos hp]; rfl

theorem firstSatIdx_lt_length {p : α → Bool} {l : List α} {f : Nat}
    (h : firstSatIdx p l = some f) : f < l.length := by
  induction l generalizing f with
  | nil => cases h
  | cons hd tl ih =>
    rw [firstSatIdx] at h
    cases hp : p hd
    · rw [if_neg (by simp [hp])] at h
      rcases hfi : firstSatIdx p tl with _ | j
      · rw [hfi] at h; cases h
      · rw [hfi] at h
        cases h
        have := ih hfi
        simp only [List.length_cons]
        omega
    · rw [if_pos hp] at h
      cases h
      simp

theorem drop_firstSatIdx_eq_dropWhile {p : α → Bool} {l : List α} {f : Nat}
    (h : firstSatIdx p l = some f) :
    l.drop f = l.dropWhile (fun a => !(p a)) := by
  induction l generalizing f with
  | nil => cases h
  | cons hd tl ih =>
    rw [firstSatIdx] at h
    cases hp : p hd
    · rw [if_neg (by simp [hp])] at h
      rcases hfi : firstSatIdx p tl with _ | j
      · rw [hfi] at h; cases h
      · rw [hfi] at h
        cases h
        rw [List.drop_succ_cons, List.dropWhile_cons, if_pos (by simp [hp])]
        exact ih hfi
    · rw [if_pos hp] at h
      cases h
      rw [List.drop_zero, List.dropWhile_cons, if_neg (by simp [hp])]

theorem spreadMerge_nil_left (p : ParamSet) : spreadMerge [] p = p := by
  simp [spreadMerge, lookupP, List.find?]

theorem alignValues_eq (n : Nat) (vs : List Val) :
    alignValues n vs =
      if n < vs.length then vs.take n
      else vs ++ List.replicate (n - vs.length) none := by
  unfold alignValues
  by_cases h : n < vs.length
  · simp only [h, if_true]
    rw [if_neg]
    simp only [List.length_take]
    omega
  · simp only [h, if_false]
    by_cases h2 : vs.length < n
    · rw [if_pos h2]
    · rw [if_neg h2]
      have h3 : n - vs.length = 0 := by omega
      rw [h3]
      simp

/-! ## Claims -/

/-- C8: after alignment every ParameterSeries has length exactly `N`
(the TimeAxis length); a series shorter than `N` is right-padded with
absent markers (its original values unchanged, the tail all `none`),
and a series longer than `N` is truncated from the end (its first `N`
values are kept). -/
theorem c8_alignment (n : Nat) (vs : List Val) :
    (alignValues n vs).length = n ∧
    (vs.length ≤ n → alignValues n vs = vs ++ List.replicate (n - vs.length) none) ∧
    (n ≤ vs.length → alignValues n vs = vs.take n) := by
  refine ⟨?_, ?_, ?_⟩
  · rw [alignValues_eq]
    by_cases h : n < vs.length
    · rw [if_pos h]
      simp only [List.length_take]
      omega
    · rw [if_neg h]
      simp only [List.length_append, List.length_replicate]
      omega
  · intro hle
    rw [alignValues_eq, if_neg (by omega)]
  · intro hge
    rw [alignValues_eq]
    by_cases h : n < vs.length
    · rw [if_pos h]
    · have heq : n = vs.length := by omega
      subst heq
      rw [if_neg h]
      simp

/-- C8 witness at concrete inputs: padding a 1-element series to length
4 and truncating a 3-element series to length 2. -/
theorem c8_alignment_witness :
    (alignValues 4 [some (1 : Rat)]).length = 4 ∧
    ([some (1 : Rat)].length ≤ 4 ∧
      alignValues 4 [some (1 : Rat)] =
        [some (1 : Rat)] ++ List.replicate (4 - [some (1 : Rat)].length) none) ∧
    (2 ≤ [some (1 : Rat), some 2, some 3].length ∧
      alignValues 2 [some (1 : Rat), some 2, some 3] =
        [some (1 : Rat), some 2, some 3].take 2) :=
  ⟨(c8_alignment 4 [some 1]).1,
   ⟨by decide, (c8_alignment 4 [some 1]).2.1 (by decide)⟩,
   ⟨by decide, (c8_alignment 2 [some 1, some 2, some 3]).2.2 (by decide)⟩⟩

/-- C2: the parameter-extraction strategies are consulted in the fixed
order A (tabular simple-array), B (Forecast/TimeSeries), C
(attribute-named Forecast), D (raw-text regex), E (generic walk), and
the chain stops at the first strategy whose result is non-empty; in
particular, when strategy A is non-empty, the chain result is exactly
A's set, so every code resolves to A's series and strategy E's values
are never used. -/
theorem c2_fallback_chain (pA pB pB2 pC pD : ParamSet) :
    (pA ≠ [] → paramsChain pA pB pB2 pC pD = pA ∧
      ∀ c, lookupP (paramsChain pA pB pB2 pC pD) c = lookupP pA c) ∧
    (pA = [] → pB ≠ [] → paramsChain pA pB pB2 pC pD = pB) ∧
    (pA = [] → pB = [] → pB2 ≠ [] → paramsChain pA pB pB2 pC pD = pB2) ∧
    (pA = [] → pB = [] → pB2 = [] → pC ≠ [] → paramsChain pA pB pB2 pC pD = pC) ∧
    (pA = [] → pB = [] → pB2 = [] → pC = [] → paramsChain pA pB pB2 pC pD = pD) := by
  have hemp : ∀ (l : ParamSet), l ≠ [] → l.isEmpty = false := by
    intro l hl
    cases l
    · exact absurd rfl hl
    · rfl
  refine ⟨?_, ?_, ?_, ?_, ?_⟩
  · intro hA
    constructor
    · simp [paramsChain, spreadMerge_nil_left, hemp pA hA]
    · intro c
      simp [paramsChain, spreadMerge_nil_left, hemp pA hA]
  · intro hA hB
    subst hA
    simp [paramsChain, spreadMerge_nil_left, hemp pB hB]
  · intro hA hB hB2
    subst hA; subst hB
    simp [paramsChain, spreadMerge_nil_left, hemp pB2 hB2]
  · intro hA hB hB2 hC
    subst hA; subst hB; subst hB2
    simp [paramsChain, spreadMerge_nil_left, hemp pC hC]
  · intro hA hB hB2 hC
    subst hA; subst hB; subst hB2; subst hC
    simp [paramsChain, spreadMerge_nil_left]

/-- C2 witness: with strategy A non-empty and strategy E (generic walk)
offering different values for the same code, the chain returns A's set
and the code looks up to A's series. -/
theorem c2_fallback_chain_witness :
    paramsChain [("TTT", ⟨"TTT", none, [some 280]⟩)] [] []
        [] [("TTT", ⟨"TTT", none, [some 999]⟩)] =
      [("TTT", ⟨"TTT", none, [some 280]⟩)] ∧
    lookupP (paramsChain [("TTT", ⟨"TTT", none, [some 280]⟩)] [] []
        [] [("TTT", ⟨"TTT", none, [some 999]⟩)]) "TTT" =
      lookupP [("TTT", ⟨"TTT", none, [some 280]⟩)] "TTT" :=
  ⟨((c2_fallback_chain _ _ _ _ _).1 (by decide)).1,
   ((c2_fallback_chain _ _ _ _ _).1 (by decide)).2 "TTT"⟩

/-- C10: when no instant of the time axis is ≥ now, the horizon filter
(for any positive horizon) returns the time axis and every parameter
series completely unchanged. -/
theorem c10_all_past_unchanged (now : Int) (ts : List Int) (params : ParamSet)
    (hoursAhead : Rat) (hH : 0 < hoursAhead) (hpast : ∀ t ∈ ts, t < now) :
    applyHoursAheadFilter now ts params hoursAhead = (ts, params) := by
  have h2 : firstSatIdx (fun t => decide (now ≤ t)) ts = none :=
    firstSatIdx_eq_none_of_all_false (fun t ht => by
      simp only [decide_eq_false_iff_not, not_le]
      exact hpast t ht)
  have h1 : firstSatIdx (winP now ((now : Rat) + hoursAhead * 3600 * 1000)) ts = none :=
    firstSatIdx_eq_none_of_all_false (fun t ht => by
      simp only [winP, Bool.and_eq_false_iff]
      left
      simp only [decide_eq_false_iff_not, not_le]
      exact hpast t ht)
  unfold applyHoursAheadFilter
  rw [if_neg (not_le.mpr hH)]
  simp only [h1, h2]

/-- C10 witness: axis `[1, 2]` with `now = 10` and a 1-hour horizon is
returned unchanged. -/
theorem c10_all_past_unchanged_witness :
    (0 : Rat) < 1 ∧ (∀ t ∈ ([1, 2] : List Int), t < 10) ∧
    applyHoursAheadFilter 10 [1, 2] [] 1 = ([1, 2], []) :=
  ⟨by norm_num, by decide, c10_all_past_unchanged 10 [1, 2] [] 1 (by norm_num) (by decide)⟩

theorem coreProject_eq (r : ForecastRecord) : coreProject r = r := rfl

theorem mem_normalizeRecords_iff {expF : Rat → Rat} {ts : List Int}
    {params : ParamSet} {cfg : Cfg} {r : ForecastRecord} :
    r ∈ normalizeRecords expF ts params cfg ↔
      ∃ q ∈ ts.enum, r = buildRecord expF params cfg q.1 q.2 := by
  unfold normalizeRecords
  by_cases h : cfg.coreOnly
  · simp [h, coreProject_eq, List.mem_map, eq_comm]
  · simp [h, List.mem_map, eq_comm]

theorem jsMod_of_nonneg_lt {x y : Rat} (h0 : 0 ≤ x) (hxy : x < y) : jsMod x y = x := by
  have hy : 0 < y := lt_of_le_of_lt h0 hxy
  have hq0 : 0 ≤ x / y := div_nonneg h0 (le_of_lt hy)
  have hq1 : x / y < 1 := (div_lt_one hy).mpr hxy
  unfold jsMod ratTrunc
  rw [if_neg (not_lt.mpr hq0), Int.floor_eq_zero_iff.mpr ⟨hq0, hq1⟩]
  simp

theorem jsMod_add_self_of_nonneg_lt {x y : Rat} (h0 : 0 ≤ x) (hxy : x < y) :
    jsMod (x + y) y = x := by
  have hy : 0 < y := lt_of_le_of_lt h0 hxy
  have hdiv : (x + y) / y = x / y + 1 := by
    field_simp
  have hq0 : 0 ≤ x / y := div_nonneg h0 (le_of_lt hy)
  have hq1 : x / y < 1 := (div_lt_one hy).mpr hxy
  unfold jsMod ratTrunc
  rw [hdiv, if_neg (not_lt.mpr (by linarith)), Int.floor_add_one,
    Int.floor_eq_zero_iff.mpr ⟨hq0, hq1⟩]
  push_cast
  ring

theorem jsNorm_of_nonneg_lt {d : Rat} (h0 : 0 ≤ d) (h1 : d < 360) :
    jsMod (jsMod d 360 + 360) 360 = d := by
  rw [jsMod_of_nonneg_lt h0 h1, jsMod_add_self_of_nonneg_lt h0 h1]

theorem dirToCardinal_zero_8 : dirToCardinal (some 0) "8" = some "N" := by
  rw [dirToCardinal, jsNorm_of_nonneg_lt (by norm_num) (by norm_num)]
  rw [if_pos rfl]
  rw [show jsRound ((0 : Rat) / 45) = 0 by norm_num [jsRound]]
  rfl

theorem dirToCardinal_zero_16 : dirToCardinal (some 0) "16" = some "N" := by
  rw [dirToCardinal, jsNorm_of_nonneg_lt (by norm_num) (by norm_num)]
  rw [if_neg (by decide), if_pos rfl]
  rw [show jsRound ((0 : Rat) / 22.5) = 0 by norm_num [jsRound]]
  rfl

theorem dirToCardinal_225_8 : dirToCardinal (some 225) "8" = some "SW" := by
  rw [dirToCardinal, jsNorm_of_nonneg_lt (by norm_num) (by norm_num)]
  rw [if_pos rfl]
  rw [show jsRound ((225 : Rat) / 45) = 5 by norm_num [jsRound]]
  rfl

theorem dirToCardinal_100_16 : dirToCardinal (some 100) "16" = some "O" := by
  rw [dirToCardinal, jsNorm_of_nonneg_lt (by norm_num) (by norm_num)]
  rw [if_neg (by decide), if_pos rfl]
  rw [show jsRound ((100 : Rat) / 22.5) = 4 by norm_num [jsRound]]
  rfl

/-- C5 counterexample: in 16-way mode, 100 degrees maps to `"O"` (the
German 16-sector label for east, the nearest sector at 90 degrees:
`Math.round(100 / 22.5) = 4`), not to `"ESE"` as the claim states
(nor to its German form `"OSO"`). -/
theorem c5_counterexample :
    dirToCardinal (some 100) "16" = some "O" ∧
    ("O" : String) ≠ "ESE" ∧ ("O" : String) ≠ "OSO" :=
  ⟨dirToCardinal_100_16, by decide, by decide⟩

/-- C5 (amended): in a non-default wind-direction mode the cardinal
label is obtained by dividing the circle into equal arcs (45 degrees
for 8-way, 22.5 degrees for 16-way) and rounding to the nearest sector
index, with German sector names (`O` for east): 0 maps to "N" in both
modes, 225 maps to "SW" in 8-way mode, and 100 maps to "O" (east) in
16-way mode; in the default numeric-degrees mode no record carries a
cardinal label. -/
theorem c5_wind_cardinal (expF : Rat → Rat) (ts : List Int) (params : ParamSet)
    (cfg : Cfg) (hdeg : cfg.windDirMode = "deg") :
    (∀ r ∈ normalizeRecords expF ts params cfg, r.windDirCardinal = none) ∧
    dirToCardinal (some 0) "8" = some "N" ∧
    dirToCardinal (some 0) "16" = some "N" ∧
    dirToCardinal (some 225) "8" = some "SW" ∧
    dirToCardinal (some 100) "16" = some "O" := by
  refine ⟨?_, dirToCardinal_zero_8, dirToCardinal_zero_16,
    dirToCardinal_225_8, dirToCardinal_100_16⟩
  intro r h
  rw [mem_normalizeRecords_iff] at h
  obtain ⟨q, hq, rfl⟩ := h
  show (if cfg.windDirMode ≠ "" ∧ cfg.windDirMode ≠ "deg" then
    dirToCardinal (getFirst params ["DD"] q.1) cfg.windDirMode else none) = none
  rw [if_neg]
  simp [hdeg]

/-- C5 witness: with the default `"deg"` mode every record of a
concrete run lacks the cardinal label, while `dirToCardinal` itself
maps 225 degrees to "SW" in 8-way mode. -/
theorem c5_wind_cardinal_witness :
    sampleCfg.windDirMode = "deg" ∧
    (∀ r ∈ normalizeRecords (fun x => x) [0]
        [("DD", ⟨"DD", none, [some 225]⟩)] sampleCfg, r.windDirCardinal = none) ∧
    dirToCardinal (some 225) "8" = some "SW" :=
  ⟨rfl,
   (c5_wind_cardinal (fun x => x) [0] [("DD", ⟨"DD", none, [some 225]⟩)] sampleCfg rfl).1,
   (c5_wind_cardinal (fun x => x) [0] [("DD", ⟨"DD", none, [some 225]⟩)] sampleCfg rfl).2.2.2.1⟩

/-- C3 counterexample: a precipitation value of `0` (which is ≤ 0) is
rendered as a rain description `Regen (leicht) - 0 mm/h`, not as
"no precipitation"; and when the value is absent the description field
stays `null` — the code never renders a "no precipitation" text
(it only checks `rec.precipitation != null`, line 638). -/
theorem c3_counterexample :
    normalizeRecords (fun x => x) [0] [("RR1c", ⟨"RR1c", none, [some 0]⟩)] sampleCfg =
      [buildRecord (fun x => x) [("RR1c", ⟨"RR1c", none, [some 0]⟩)] sampleCfg 0 0] ∧
    (buildRecord (fun x => x) [("RR1c", ⟨"RR1c", none, [some 0]⟩)] sampleCfg 0 0).precipitation
      = some 0 ∧
    (buildRecord (fun x => x) [("RR1c", ⟨"RR1c", none, [some 0]⟩)] sampleCfg 0 0).precipitationText
      = some { kind := "Regen", intensity := "leicht", rate := 0 } ∧
    (buildRecord (fun x => x) [] sampleCfg 0 0).precipitation = none ∧
    (buildRecord (fun x => x) [] sampleCfg 0 0).precipitationText = none := by
  refine ⟨rfl, rfl, ?_, rfl, rfl⟩
  show (getFirst [("RR1c", ⟨"RR1c", none, [some 0]⟩)] ["RR1c", "RR1o1"] 0).map _ = _
  rw [show getFirst [("RR1c", (⟨"RR1c", none, [some 0]⟩ : ParamSeries))] ["RR1c", "RR1o1"] 0
      = some 0 from rfl]
  have h03 : ((0 : Rat) < 3/10) := by norm_num
  simp only [Option.map_some', if_pos h03]

/-- C3 (amended): for every timestep record built by the Normalizer, if
the precipitation-rate value is present (including 0 and negative
values) the description classifies intensity by the thresholds
`< 0.3` light, `< 1.0` moderate, else heavy, and combines the kind
("Regen"), the intensity and the numeric rate; if the value is absent
the description field is the absent marker (`null`), and no
"no precipitation" text is ever rendered. -/
theorem c3_precipitation_text (expF : Rat → Rat) (ts : List Int)
    (params : ParamSet) (cfg : Cfg) :
    ∀ r ∈ normalizeRecords expF ts params cfg,
      (∀ p : Rat, r.precipitation = some p →
        r.precipitationText = some
          { kind := "Regen",
            intensity := if p < 3/10 then "leicht" else if p < 1 then "mäßig" else "stark",
            rate := p }) ∧
      (r.precipitation = none → r.precipitationText = none) := by
  intro r h
  rw [mem_normalizeRecords_iff] at h
  obtain ⟨q, hq, rfl⟩ := h
  constructor
  · intro p hp
    have hg : getFirst params ["RR1c", "RR1o1"] q.1 = some p := hp
    show (getFirst params ["RR1c", "RR1o1"] q.1).map _ = _
    rw [hg]
    rfl
  · intro hp
    have hg : getFirst params ["RR1c", "RR1o1"] q.1 = none := hp
    show (getFirst params ["RR1c", "RR1o1"] q.1).map _ = _
    rw [hg]
    rfl

/-- C3 witness: a record with rate 5 gets the heavy rain description. -/
theorem c3_precipitation_text_witness :
    (buildRecord (fun x => x) [("RR1c", ⟨"RR1c", none, [some 5]⟩)] sampleCfg 0 0).precipitationText
      = some { kind := "Regen", intensity := "stark", rate := 5 } := by
  have hmem : buildRecord (fun x => x) [("RR1c", ⟨"RR1c", none, [some 5]⟩)] sampleCfg 0 0 ∈
      normalizeRecords (fun x => x) [0] [("RR1c", ⟨"RR1c", none, [some 5]⟩)] sampleCfg := by
    rw [mem_normalizeRecords_iff]
    exact ⟨(0, 0), by simp [List.enum], rfl⟩
  have h := (c3_precipitation_text (fun x => x) [0]
      [("RR1c", ⟨"RR1c", none, [some 5]⟩)] sampleCfg _ hmem).1 5 rfl
  rw [h, if_neg (by norm_num : ¬ ((5 : Rat) < 3/10)), if_neg (by norm_num : ¬ ((5 : Rat) < 1))]

/-- C7: when the humidity lookup is absent but temperature and dew
point are present, relative humidity is computed from the
Magnus-Tetens exponent `gamma(x) = 17.625 x / (243.04 + x)` on
Celsius-converted inputs as `100 * exp(gamma(Td)) / exp(gamma(T))`
(equal to `100 * exp(gamma(Td) - gamma(T))` for an exponential),
clamped to [0, 100] and rounded to the nearest whole percent; with
temperature equal to dew point the result is exactly 100. -/
theorem c7_magnus_humidity (expF : Rat → Rat) (params : ParamSet) (cfg : Cfg)
    (i : Nat) (t : Int) (tK tdK : Rat)
    (hpos : ∀ x, 0 < expF x)
    (hrh : getFirst params ["rH", "RELH"] i = none)
    (hT : getFirst params ["TTT"] i = some tK)
    (hTd : getFirst params ["Td"] i = some tdK) :
    (buildRecord expF params cfg i t).relHumidity =
      some (jsRound (max 0 (min 100
        (100 * (expF (magnusGamma (KtoC tdK)) / expF (magnusGamma (KtoC tK))))))) ∧
    ((∀ x y, expF (x - y) = expF x / expF y) →
      (buildRecord expF params cfg i t).relHumidity =
        some (jsRound (max 0 (min 100
          (100 * expF (magnusGamma (KtoC tdK) - magnusGamma (KtoC tK))))))) ∧
    (tK = tdK → (buildRecord expF params cfg i t).relHumidity = some 100) := by
  have hmain : (buildRecord expF params cfg i t).relHumidity =
      some (jsRound (max 0 (min 100
        (100 * (expF (magnusGamma (KtoC tdK)) / expF (magnusGamma (KtoC tK))))))) := by
    simp only [buildRecord, hrh, hT, hTd, Option.map_some']
  refine ⟨hmain, ?_, ?_⟩
  · intro hhom
    rw [hmain, ← hhom]
  · intro heq
    subst heq
    rw [hmain, div_self (ne_of_gt (hpos _)), mul_one, min_self,
      max_eq_right (by norm_num : (0 : Rat) ≤ 100)]
    norm_num [jsRound]

/-- C7 witness: with `TTT = Td = 300` (temperature equal to dew point),
no humidity series, and `Math.exp` standing in as any positive
function, the derived humidity is exactly 100. -/
theorem c7_magnus_humidity_witness :
    (buildRecord (fun _ => (1 : Rat))
        [("TTT", ⟨"TTT", none, [some 300]⟩), ("Td", ⟨"Td", none, [some 300]⟩)]
        sampleCfg 0 0).relHumidity = some 100 :=
  (c7_magnus_humidity (fun _ => (1 : Rat))
    [("TTT", ⟨"TTT", none, [some 300]⟩), ("Td", ⟨"Td", none, [some 300]⟩)]
    sampleCfg 0 0 300 300 (fun _ => one_pos) rfl rfl rfl).2.2 rfl

theorem buildRecord_ts (expF : Rat → Rat) (params : ParamSet) (cfg : Cfg)
    (i : Nat) (t : Int) : (buildRecord expF params cfg i t).ts = t := rfl

theorem normalizeRecords_length (expF : Rat → Rat) (ts : List Int)
    (params : ParamSet) (cfg : Cfg) :
    (normalizeRecords expF ts params cfg).length = ts.length := by
  unfold normalizeRecords
  by_cases h : cfg.coreOnly <;> simp [h]

theorem normalizeRecords_map_ts (expF : Rat → Rat) (ts : List Int)
    (params : ParamSet) (cfg : Cfg) :
    (normalizeRecords expF ts params cfg).map (fun r => r.ts) = ts := by
  have key : ∀ l : List (Nat × Int),
      (l.map (fun q => buildRecord expF params cfg q.1 q.2)).map (fun r => r.ts) =
        l.map Prod.snd := by
    intro l
    rw [List.map_map]
    rfl
  have keyCore : (ts.enum.map (fun q => buildRecord expF params cfg q.1 q.2)).map coreProject
      = ts.enum.map (fun q => buildRecord expF params cfg q.1 q.2) := by
    rw [List.map_map]
    rfl
  unfold normalizeRecords
  cases h : cfg.coreOnly
  · simp only [Bool.false_eq_true, if_false]
    rw [key]
    exact List.enum_map_snd ts
  · simp only [if_true]
    rw [keyCore, key]
    exact List.enum_map_snd ts

theorem jsSlice_sublist (l : List α) (a b : Nat) : (jsSlice l a b).Sublist l :=
  ((l.drop a).take_sublist _).trans (l.drop_sublist a)

theorem applyOnlyFutureFilter_sublist (now : Int) (ts : List Int)
    (params : ParamSet) (onlyFuture : Bool) :
    (applyOnlyFutureFilter now ts params onlyFuture).1.Sublist ts := by
  unfold applyOnlyFutureFilter
  cases onlyFuture
  · simp
  · rcases hfi : firstSatIdx (fun t => decide (now ≤ t)) ts with _ | s
    · simp
    · cases s
      · simp
      · simp only [Bool.not_true, Bool.false_eq_true, if_false]
        exact ts.drop_sublist _

theorem applyHoursAheadFilter_sublist (now : Int) (ts : List Int)
    (params : ParamSet) (hoursAhead : Rat) :
    (applyHoursAheadFilter now ts params hoursAhead).1.Sublist ts := by
  unfold applyHoursAheadFilter
  by_cases h : hoursAhead ≤ 0
  · rw [if_pos h]
  · rw [if_neg h]
    rcases h1 : firstSatIdx (winP now ((now : Rat) + hoursAhead * 3600 * 1000)) ts with _ | f
    · rcases h2 : firstSatIdx (fun t => decide (now ≤ t)) ts with _ | g
      · simp only [h1, h2]
        exact List.Sublist.refl ts
      · simp only [h1, h2]
        by_cases h3 : (min ((ts.length : Int) - 1)
            ((g : Int) + max 0 ⌈hoursAhead⌉ - 1)) < (g : Int)
        · rw [if_pos h3]
        · rw [if_neg h3]
          exact jsSlice_sublist ts _ _
    · rcases h2 : lastSatIdx (winP now ((now : Rat) + hoursAhead * 3600 * 1000)) ts with _ | l
      · simp only [h1, h2]
        exact List.Sublist.refl ts
      · simp only [h1, h2]
        exact jsSlice_sublist ts _ _

/-- C4 counterexample: a successful run on the (unsorted, already
parsed) time axis `[5, 5]` emits records whose timestamps are `[5, 5]`,
which are not strictly increasing — the code never sorts or
deduplicates the parsed axis. -/
theorem c4_counterexample :
    ((runFetch (fun x => x) sampleNode none msgNone (.ok ⟨[5, 5], [], none⟩) 0).sent.map
      (fun out => out.payload.map (fun r => r.ts))) = some [5, 5] ∧
    ¬ List.Pairwise (· < ·) ([5, 5] : List Int) :=
  ⟨rfl, by decide⟩

/-- C4 (amended): for every successful run the number of emitted
ForecastRecords equals the length of the filtered time axis, and
whenever the parsed time axis is strictly increasing the emitted
records' timestamps are strictly increasing as well (both filters
take contiguous or suffix slices, which preserve strict order). -/
theorem c4_records_length_and_monotone (expF : Rat → Rat) (node : NodeCfg)
    (ctx : Option CacheEntry) (msg : Msg) (f : FetchOk) (now : Int)
    (hst : jsTrim (jsToUpper (effStation node msg)) ≠ "") :
    ((runFetch expF node ctx msg (.ok f) now).sent.map (fun out => out.payload.length)) =
      some (applyHoursAheadFilter now
        (applyOnlyFutureFilter now f.timeSteps f.params
          ((msg.onlyFuture).getD node.onlyFuture)).1
        (applyOnlyFutureFilter now f.timeSteps f.params
          ((msg.onlyFuture).getD node.onlyFuture)).2
        ((msg.hoursAhead).getD node.hoursAhead)).1.length ∧
    (∀ out, (runFetch expF node ctx msg (.ok f) now).sent = some out →
      List.Pairwise (· < ·) f.timeSteps →
      List.Pairwise (· < ·) (out.payload.map (fun r => r.ts))) := by
  rcases hurl : buildUrl (effStation node msg)
      (jsOrString ((msg.sourceUrl).getD "") (jsOrString node.sourceUrl DEFAULT_URL_TEMPLATE))
      with _ | url
  · exfalso
    unfold buildUrl at hurl
    rw [if_neg hst] at hurl
    cases hurl
  · constructor
    · simp only [runFetch, hurl, Option.map_some']
      rw [normalizeRecords_length]
    · intro out hout hp
      simp only [runFetch, hurl, Option.some.injEq] at hout
      subst hout
      rw [normalizeRecords_map_ts]
      exact hp.sublist ((applyHoursAheadFilter_sublist now _ _ _).trans
        (applyOnlyFutureFilter_sublist now f.timeSteps f.params _))

/-- C4 witness: a concrete successful run on the strictly increasing
axis `[5, 9]` with no filtering configured. -/
theorem c4_records_length_and_monotone_witness :
    ((runFetch (fun x => x) sampleNode none msgNone
        (.ok ⟨[5, 9], [], none⟩) 0).sent.map (fun out => out.payload.length)) =
      some (applyHoursAheadFilter 0
        (applyOnlyFutureFilter 0 [5, 9] [] ((msgNone.onlyFuture).getD sampleNode.onlyFuture)).1
        (applyOnlyFutureFilter 0 [5, 9] [] ((msgNone.onlyFuture).getD sampleNode.onlyFuture)).2
        ((msgNone.hoursAhead).getD sampleNode.hoursAhead)).1.length ∧
    (∀ out, (runFetch (fun x => x) sampleNode none msgNone
        (.ok ⟨[5, 9], [], none⟩) 0).sent = some out →
      List.Pairwise (· < ·) ([5, 9] : List Int) →
      List.Pairwise (· < ·) (out.payload.map (fun r => r.ts))) :=
  c4_records_length_and_monotone (fun x => x) sampleNode none msgNone
    ⟨[5, 9], [], none⟩ 0 (by decide)

/-- C1 counterexample: on a failed run with stale-fallback requested
but no cache entry, the node emits NO message at all (the failure
description goes to the node's error handler instead); the claimed
"empty result carrying the failure description" is never sent. -/
theorem c1_counterexample :
    (runFetch (fun x => x) { sampleNode with staleOnError := true } none msgNone
      (.error "HTTP 500") 0).sent = none ∧
    (runFetch (fun x => x) { sampleNode with staleOnError := true } none msgNone
      (.error "HTTP 500") 0).errored = some "HTTP 500" :=
  ⟨rfl, rfl⟩

/-- C1 (amended): on a failed run with stale-fallback enabled and a
cache entry present, the emitted message is the cached series with the
cached meta whose staleness flag is overridden to true; on a failed run
when no cache entry exists or stale-fallback is disabled, no message is
emitted and the failure description is raised through the node's error
handler. -/
theorem c1_failed_run (expF : Rat → Rat) (node : NodeCfg) (ctx : Option CacheEntry)
    (msg : Msg) (e : String) (now : Int)
    (hst : jsTrim (jsToUpper (effStation node msg)) ≠ "") :
    (node.staleOnError = true → ∀ last, ctx = some last →
      (runFetch expF node ctx msg (.error e) now).sent =
        some { payload := last.series,
               station := { id := last.station, name := none },
               meta := { last.meta with stale := true } } ∧
      ({ last.meta with stale := true } : Meta).stale = true ∧
      (runFetch expF node ctx msg (.error e) now).errored = none) ∧
    ((node.staleOnError = false ∨ ctx = none) →
      (runFetch expF node ctx msg (.error e) now).sent = none ∧
      (runFetch expF node ctx msg (.error e) now).errored = some e) := by
  rcases hurl : buildUrl (effStation node msg)
      (jsOrString ((msg.sourceUrl).getD "") (jsOrString node.sourceUrl DEFAULT_URL_TEMPLATE))
      with _ | url
  · exfalso
    unfold buildUrl at hurl
    rw [if_neg hst] at hurl
    cases hurl
  · constructor
    · intro hso last hctx
      subst hctx
      refine ⟨?_, rfl, ?_⟩ <;>
        simp only [runFetch, hurl, hso, sendStaleIfAvailable, if_true]
    · rintro (hso | hctx)
      · refine ⟨?_, ?_⟩ <;>
          simp only [runFetch, hurl, hso, Bool.false_eq_true, if_false]
      · subst hctx
        cases hso2 : node.staleOnError
        · refine ⟨?_, ?_⟩ <;>
            simp only [runFetch, hurl, hso2, Bool.false_eq_true, if_false]
        · refine ⟨?_, ?_⟩ <;>
            simp only [runFetch, hurl, hso2, sendStaleIfAvailable, if_true]

/-- C1 witness: a failed run with a concrete cache entry present emits
the cached series flagged stale, and with no entry emits nothing. -/
theorem c1_failed_run_witness :
    (runFetch (fun x => x) { sampleNode with staleOnError := true }
        (some ⟨0, "OLDS", [], sampleMeta⟩) msgNone (.error "boom") 1).sent =
      some { payload := [], station := { id := "OLDS", name := none },
             meta := { sampleMeta with stale := true } } ∧
    ({ sampleMeta with stale := true } : Meta).stale = true ∧
    (runFetch (fun x => x) { sampleNode with staleOnError := true }
        (some ⟨0, "OLDS", [], sampleMeta⟩) msgNone (.error "boom") 1).errored = none :=
  (c1_failed_run (fun x => x) { sampleNode with staleOnError := true }
    (some ⟨0, "OLDS", [], sampleMeta⟩) msgNone "boom" 1 (by decide)).1 rfl
    ⟨0, "OLDS", [], sampleMeta⟩ rfl

/-- C9 counterexample: the cache is one entry per node, not a map keyed
by site.  After a successful run for station "AAAA", a failed run
requesting station "BBBB" serves the stale result of "AAAA" — a
different site than the failed request's. -/
theorem c9_counterexample :
    ((runFetch (fun x => x) { sampleNode with staleOnError := true, station := "AAAA" }
        ((runFetch (fun x => x) { sampleNode with staleOnError := true, station := "AAAA" }
          none msgNone (.ok ⟨[5], [], none⟩) 0).ctx)
        { msgNone with station := some "BBBB" } (.error "HTTP 500") 1).sent.map
      (fun out => out.station.id)) = some "AAAA" ∧
    effStation { sampleNode with staleOnError := true, station := "AAAA" }
      { msgNone with station := some "BBBB" } = "BBBB" ∧
    ("AAAA" : String) ≠ "BBBB" :=
  ⟨rfl, rfl, by decide⟩

/-- C9 (amended): the cache entry records the site identifier of the
successful run that wrote it, and a stale result served after a failed
run carries the cached entry's site identifier — which is the site of
the last successful run, not necessarily the site of the failed
request (the cache is a single per-node entry, not keyed by site). -/
theorem c9_cache_site (expF : Rat → Rat) (node : NodeCfg) (ctx : Option CacheEntry)
    (msg : Msg) (f : FetchOk) (e : String) (now : Int)
    (hst : jsTrim (jsToUpper (effStation node msg)) ≠ "")
    (hstale : node.staleOnError = true) :
    (∀ entry, (runFetch expF node ctx msg (.ok f) now).ctx = some entry →
      entry.station = effStation node msg) ∧
    (∀ last, ctx = some last →
      ∃ out, (runFetch expF node ctx msg (.error e) now).sent = some out ∧
        out.station.id = last.station) := by
  rcases hurl : buildUrl (effStation node msg)
      (jsOrString ((msg.sourceUrl).getD "") (jsOrString node.sourceUrl DEFAULT_URL_TEMPLATE))
      with _ | url
  · exfalso
    unfold buildUrl at hurl
    rw [if_neg hst] at hurl
    cases hurl
  · constructor
    · intro entry he
      simp only [runFetch, hurl, Option.some.injEq] at he
      rw [← he]
    · intro last hctx
      subst hctx
      simp only [runFetch, hurl, hstale, sendStaleIfAvailable, if_true]
      exact ⟨_, rfl, rfl⟩

/-- C9 witness: a concrete successful run records its own station in
the cache, and a concrete failed run serves the cached station. -/
theorem c9_cache_site_witness :
    (∀ entry, (runFetch (fun x => x) { sampleNode with staleOnError := true }
        (some ⟨3, "WXYZ", [], sampleMeta⟩) msgNone (.ok ⟨[5], [], none⟩) 0).ctx = some entry →
      entry.station = effStation { sampleNode with staleOnError := true } msgNone) ∧
    (∀ last, (some (⟨3, "WXYZ", [], sampleMeta⟩ : CacheEntry) : Option CacheEntry) = some last →
      ∃ out, (runFetch (fun x => x) { sampleNode with staleOnError := true }
          (some ⟨3, "WXYZ", [], sampleMeta⟩) msgNone (.error "E") 0).sent = some out ∧
        out.station.id = last.station) :=
  c9_cache_site (fun x => x) { sampleNode with staleOnError := true }
    (some ⟨3, "WXYZ", [], sampleMeta⟩) msgNone ⟨[5], [], none⟩ "E" 0 (by decide) rfl

theorem winP_true_iff {now : Int} {endT : Rat} {t : Int} :
    winP now endT t = true ↔ (now ≤ t ∧ (t : Rat) ≤ endT) := by
  simp [winP]

theorem exists_true_of_lastSatIdx_eq_some {p : α → Bool} {l : List α} {j : Nat}
    (h : lastSatIdx p l = some j) : ∃ a ∈ l, p a = true := by
  induction l generalizing j with
  | nil => cases h
  | cons hd tl ih =>
    rw [lastSatIdx] at h
    rcases hlt : lastSatIdx p tl with _ | j2
    · rw [hlt] at h
      cases hp : p hd
      · rw [if_neg (by simp [hp])] at h; cases h
      · exact ⟨hd, List.mem_cons_self hd tl, hp⟩
    · obtain ⟨a, ha, hpa⟩ := ih hlt
      exact ⟨a, List.mem_cons_of_mem hd ha, hpa⟩

theorem filter_eq_take_of_sorted (now : Int) (endT : Rat) (l : List Int)
    (hs : l.Pairwise (· ≤ ·)) (hge : ∀ x ∈ l, now ≤ x) (j : Nat)
    (hj : lastSatIdx (winP now endT) l = some j) :
    l.filter (winP now endT) = l.take (j + 1) := by
  induction l generalizing j with
  | nil => cases hj
  | cons hd tl ih =>
    have hhd := (List.pairwise_cons.mp hs).1
    have htl := (List.pairwise_cons.mp hs).2
    rw [lastSatIdx] at hj
    rcases hlt : lastSatIdx (winP now endT) tl with _ | j2
    · rw [hlt] at hj
      cases hw : winP now endT hd
      · rw [if_neg (by simp [hw])] at hj; cases hj
      · rw [if_pos hw] at hj
        have hj0 : j = 0 := by
          cases hj
          rfl
        subst hj0
        have hnil : tl.filter (winP now endT) = [] := by
          rw [List.filter_eq_nil_iff]
          intro a ha
          simp [all_false_of_lastSatIdx_eq_none hlt a ha]
        rw [List.filter_cons_of_pos hw, hnil]
        rfl
    · rw [hlt] at hj
      have hj2 : j = j2 + 1 := by
        cases hj
        rfl
      subst hj2
      obtain ⟨x, hx, hpx⟩ := exists_true_of_lastSatIdx_eq_some hlt
      have hw : winP now endT hd = true := by
        rw [winP_true_iff]
        have hxw := winP_true_iff.mp hpx
        refine ⟨hge hd (List.mem_cons_self hd tl), ?_⟩
        calc (hd : Rat) ≤ (x : Rat) := by exact_mod_cast hhd x hx
        _ ≤ endT := hxw.2
      rw [List.filter_cons_of_pos hw,
        ih htl (fun a ha => hge a (List.mem_cons_of_mem hd ha)) j2 hlt]
      rfl

theorem slice_eq_filter_of_sorted (now : Int) (endT : Rat) (ts : List Int)
    (hs : ts.Pairwise (· ≤ ·)) (f : Nat)
    (hf : firstSatIdx (winP now endT) ts = some f) :
    ∃ j, lastSatIdx (winP now endT) ts = some j ∧ f ≤ j ∧
      jsSlice ts f (j + 1) = ts.filter (winP now endT) := by
  induction ts generalizing f with
  | nil => cases hf
  | cons hd tl ih =>
    have hhd := (List.pairwise_cons.mp hs).1
    have htl := (List.pairwise_cons.mp hs).2
    rw [firstSatIdx] at hf
    cases hw : winP now endT hd
    · rw [if_neg (by simp [hw])] at hf
      rcases hfi : firstSatIdx (winP now endT) tl with _ | f2
      · rw [hfi] at hf; cases hf
      · rw [hfi] at hf
        simp only [Option.map_some', Option.some.injEq] at hf
        subst hf
        by_cases hn : now ≤ hd
        · exfalso
          have hde : ¬ ((hd : Rat) ≤ endT) := by
            intro hle
            rw [winP_true_iff.mpr ⟨hn, hle⟩] at hw
            cases hw
          have hallf : ∀ a ∈ tl, winP now endT a = false := by
            intro a ha
            cases hwa : winP now endT a
            · rfl
            · exfalso
              have := (winP_true_iff.mp hwa).2
              have hcast : (hd : Rat) ≤ (a : Rat) := by exact_mod_cast hhd a ha
              exact hde (le_trans hcast this)
          rw [firstSatIdx_eq_none_of_all_false hallf] at hfi
          cases hfi
        · obtain ⟨j2, hlast, hle2, hslice⟩ := ih htl f2 hfi
          refine ⟨j2 + 1, ?_, by omega, ?_⟩
          · rw [lastSatIdx, hlast]
          · have hdrop : jsSlice (hd :: tl) (f2 + 1) (j2 + 1 + 1) = jsSlice tl f2 (j2 + 1) := by
              unfold jsSlice
              rw [List.drop_succ_cons]
              congr 1
              omega
            rw [hdrop, hslice, List.filter_cons_of_neg (by simp [hw])]
    · rw [if_pos hw] at hf
      have hf0 : f = 0 := by
        cases hf
        rfl
      subst hf0
      have hgehd : now ≤ hd := (winP_true_iff.mp hw).1
      have hge : ∀ x ∈ hd :: tl, now ≤ x := by
        intro x hx
        rcases List.mem_cons.mp hx with rfl | hmem
        · exact hgehd
        · exact le_trans hgehd (by exact_mod_cast hhd x hmem)
      have hlEq : lastSatIdx (winP now endT) (hd :: tl) =
          (match lastSatIdx (winP now endT) tl with
           | some j => some (j + 1)
           | none => if winP now endT hd = true then some 0 else none) := rfl
      rcases hlt : lastSatIdx (winP now endT) tl with _ | j2
      · refine ⟨0, ?_, le_refl 0, ?_⟩
        · rw [hlEq, hlt, if_pos hw]
        · have hnil : tl.filter (winP now endT) = [] := by
            rw [List.filter_eq_nil_iff]
            intro a ha
            simp [all_false_of_lastSatIdx_eq_none hlt a ha]
          rw [List.filter_cons_of_pos hw, hnil]
          rfl
      · refine ⟨j2 + 1, ?_, by omega, ?_⟩
        · rw [hlEq, hlt]
        · have htake : tl.filter (winP now endT) = tl.take (j2 + 1) :=
            filter_eq_take_of_sorted now endT tl htl
              (fun a ha => hge a (List.mem_cons_of_mem hd ha)) j2 hlt
          rw [List.filter_cons_of_pos hw, htake]
          unfold jsSlice
          rw [List.drop_zero]
          simp [List.take_succ_cons]

/-- C6: for a non-decreasing time axis (the TimeAxis invariant) and a
positive horizon `H`, the filter keeps exactly the timesteps whose
instants lie within `[now, now + H hours]`, slicing every parameter
series in lockstep; if no instant lies in that window but future
instants exist, it keeps up to `ceil(H)` of the earliest future
instants (again slicing every series in lockstep). -/
theorem c6_hours_ahead_window (now : Int) (ts : List Int) (params : ParamSet)
    (H : Rat) (hH : 0 < H) (hsort : ts.Pairwise (· ≤ ·)) :
    ((∃ t ∈ ts, winP now ((now : Rat) + H * 3600 * 1000) t = true) →
      (applyHoursAheadFilter now ts params H).1 =
        ts.filter (winP now ((now : Rat) + H * 3600 * 1000)) ∧
      ∃ a b, (applyHoursAheadFilter now ts params H).1 = jsSlice ts a b ∧
        (applyHoursAheadFilter now ts params H).2 = sliceParams params a b) ∧
    ((∀ t ∈ ts, winP now ((now : Rat) + H * 3600 * 1000) t = false) →
      (∃ t ∈ ts, now ≤ t) →
      (applyHoursAheadFilter now ts params H).1 =
        (ts.dropWhile (fun t => !(decide (now ≤ t)))).take ⌈H⌉.toNat ∧
      ∃ a b, (applyHoursAheadFilter now ts params H).1 = jsSlice ts a b ∧
        (applyHoursAheadFilter now ts params H).2 = sliceParams params a b) := by
  constructor
  · intro hex
    have hfs := firstSatIdx_isSome_of_exists hex
    rcases hf : firstSatIdx (winP now ((now : Rat) + H * 3600 * 1000)) ts with _ | f
    · rw [hf] at hfs; cases hfs
    · obtain ⟨j, hj, hfj, hslice⟩ :=
        slice_eq_filter_of_sorted now ((now : Rat) + H * 3600 * 1000) ts hsort f hf
      have happ : applyHoursAheadFilter now ts params H =
          (jsSlice ts f (j + 1), sliceParams params f (j + 1)) := by
        unfold applyHoursAheadFilter
        rw [if_neg (not_le.mpr hH)]
        simp only [hf, hj]
      rw [happ]
      exact ⟨hslice, f, j + 1, rfl, rfl⟩
  · intro hall hfut
    have hf1 : firstSatIdx (winP now ((now : Rat) + H * 3600 * 1000)) ts = none :=
      firstSatIdx_eq_none_of_all_false hall
    have hfut2 : ∃ t ∈ ts, decide (now ≤ t) = true := by
      obtain ⟨t, ht, hle⟩ := hfut
      exact ⟨t, ht, by simp [hle]⟩
    have hfs := firstSatIdx_isSome_of_exists hfut2
    rcases hf2 : firstSatIdx (fun t => decide (now ≤ t)) ts with _ | g
    · rw [hf2] at hfs; cases hfs
    · have hglen : g < ts.length := firstSatIdx_lt_length hf2
      have hceil : (1 : Int) ≤ ⌈H⌉ := Int.ceil_pos.mpr hH
      have hnotlt : ¬ (min ((ts.length : Int) - 1)
          ((g : Int) + max 0 ⌈H⌉ - 1) < (g : Int)) := by
        rw [max_eq_right (by omega : (0 : Int) ≤ ⌈H⌉)]
        rw [not_lt, le_min_iff]
        omega
      have happ : applyHoursAheadFilter now ts params H =
          (jsSlice ts g ((min ((ts.length : Int) - 1)
             ((g : Int) + max 0 ⌈H⌉ - 1)).toNat + 1),
           sliceParams params g ((min ((ts.length : Int) - 1)
             ((g : Int) + max 0 ⌈H⌉ - 1)).toNat + 1)) := by
        unfold applyHoursAheadFilter
        rw [if_neg (not_le.mpr hH)]
        simp only [hf1, hf2]
        rw [if_neg hnotlt]
      rw [happ]
      refine ⟨?_, g, _, rfl, rfl⟩
      have hdrop : ts.drop g = ts.dropWhile (fun t => !(decide (now ≤ t))) :=
        drop_firstSatIdx_eq_dropWhile hf2
      show (ts.drop g).take ((min ((ts.length : Int) - 1)
          ((g : Int) + max 0 ⌈H⌉ - 1)).toNat + 1 - g) =
        (ts.dropWhile (fun t => !(decide (now ≤ t)))).take ⌈H⌉.toNat
      rw [← hdrop]
      rw [max_eq_right (by omega : (0 : Int) ≤ ⌈H⌉)]
      rcases le_total ((ts.length : Int) - 1) ((g : Int) + ⌈H⌉ - 1) with hAB | hAB
      · rw [min_eq_left hAB]
        have hlen2 : (ts.drop g).length = ts.length - g := List.length_drop g ts
        have hc1 : ((ts.length : Int) - 1).toNat + 1 - g = ts.length - g := by omega
        rw [hc1]
        rw [List.take_of_length_le (by omega), List.take_of_length_le (by omega)]
      · rw [min_eq_right hAB]
        have hc2 : ((g : Int) + ⌈H⌉ - 1).toNat + 1 - g = ⌈H⌉.toNat := by omega
        rw [hc2]

/-- C6 witness: axis `[1h, 2h, 3h]` (in ms), `now = 0`, horizon 2 h:
the window case applies and the kept steps are exactly the filtered
ones. -/
theorem c6_hours_ahead_window_witness :
    (applyHoursAheadFilter 0 [3600000, 7200000, 10800000] [] 2).1 =
      List.filter (winP 0 ((0 : Rat) + 2 * 3600 * 1000)) [3600000, 7200000, 10800000] ∧
    ∃ a b, (applyHoursAheadFilter 0 [3600000, 7200000, 10800000] [] 2).1 =
        jsSlice [3600000, 7200000, 10800000] a b ∧
      (applyHoursAheadFilter 0 [3600000, 7200000, 10800000] [] 2).2 =
        sliceParams [] a b :=
  (c6_hours_ahead_window 0 [3600000, 7200000, 10800000] [] 2 (by norm_num)
    (by decide)).1
    ⟨3600000, by decide, by
      simp only [winP, Bool.and_eq_true, decide_eq_true_eq]
      norm_num⟩

end Dwd
